import Mathlib

/-!
Shallow embedding of the ViperMonkey statement execution engine
(src/vipermonkey/core/statements.py) and verification of the frozen claims.

Python exceptions are modelled explicitly: every evaluation step returns the
Context as mutated so far together with an optional propagating exception
(`StepOut`).  The outer `Option` layer is meta-level iteration fuel for the
Python `while` loops (which need not terminate); `none` means the fuel ran
out and corresponds to no Python behaviour.
-/

namespace ViperMonkey

/-- Runtime values manipulated by the engine: Python int, str, list
(the three shapes `statements.py` dispatches on via `isinstance`). -/
inductive Value where
  | vInt : Int → Value
  | vStr : String → Value
  | vList : List Value → Value

/-- Python exceptions that `statements.py` can raise or catch. -/
inductive EvalErr where
  | keyError : EvalErr
  | indexError : EvalErr
  | typeError : EvalErr
  | valueError : EvalErr
deriving DecidableEq

mutual

/-- Python `==` on the modelled values (cross-type comparison is False). -/
def pyEq : Value → Value → Bool
  | .vInt a, .vInt b => decide (a = b)
  | .vStr a, .vStr b => decide (a = b)
  | .vList a, .vList b => pyEqList a b
  | _, _ => false

/-- Python `==` on lists: elementwise, equal lengths. -/
def pyEqList : List Value → List Value → Bool
  | [], [] => true
  | a :: as, b :: bs => pyEq a b && pyEqList as bs
  | _, _ => false

end

/-- Whether a value is hashable in Python: ints and strings are, lists are
not (`set.add` and set membership raise TypeError on them). -/
def pyHashable : Value → Bool
  | .vList _ => false
  | _ => true

/-- Python 2 `str.lower()` (ASCII-only, as it is on Python 2 byte strings). -/
def charLower (c : Char) : Char :=
  if 65 ≤ c.toNat ∧ c.toNat ≤ 90 then Char.ofNat (c.toNat + 32) else c

/-- Python 2 `str.lower()` over a whole string. -/
def pyLower (s : String) : String := ⟨s.data.map charLower⟩

/-- One entry of the Context's open-file table: `{name, contents}`
(File_Open / Print_Statement). -/
structure FileEntry where
  name : Value
  contents : List Value

/-- The execution Context (external collaborator, interface per spec section 6):
variable store, declared-type table, loop-exit stack (top of the Python list is
the head here), With prefix, open-file table, action log, function-exit flag,
and the configured loop upper bound (`VBA_Object.loop_upper_bound`). -/
structure Context where
  vars : List (String × Value)
  types : List (String × String)
  loop_stack : List Bool
  withPrefix : String
  open_files : List (Value × FileEntry)
  actions : List (String × String × String)
  exit_func : Bool
  loop_upper_bound : Int

/-- Assoc-list lookup used by `context.get` (KeyError is `none`). -/
def lookupVar : List (String × Value) → String → Option Value
  | [], _ => none
  | (k, v) :: rest, n => if k = n then some v else lookupVar rest n

/-- Assoc-list upsert used by `context.set`. -/
def setVarList : List (String × Value) → String → Value → List (String × Value)
  | [], n, v => [(n, v)]
  | (k, w) :: rest, n, v => if k = n then (k, v) :: rest else (k, w) :: setVarList rest n v

/-- Modelled from the spec: `Context.get(name) -> value`, "fails with a
not-found condition when absent" (vba_context is not part of the given
source; the interface is taken from spec section 6). -/
def Context.get (ctx : Context) (n : String) : Option Value :=
  lookupVar ctx.vars n

/-- Modelled from the spec: `Context.set(name, value)` upserts the variable,
leaving its declared type alone when no type hint is given. -/
def Context.set (ctx : Context) (n : String) (v : Value) : Context :=
  { ctx with vars := setVarList ctx.vars n v }

/-- Modelled from the spec: `Context.get_type(name) -> type_hint?`, consulted
by the Let coercion engine. -/
def Context.get_type (ctx : Context) (n : String) : Option String :=
  lookupVar (ctx.types.map (fun p => (p.1, Value.vStr p.2))) n |>.map
    (fun v => match v with | .vStr s => s | _ => "")

/-- Push one entry onto the loop-exit stack (`context.loop_stack.append`). -/
def Context.pushLoop (ctx : Context) (b : Bool) : Context :=
  { ctx with loop_stack := b :: ctx.loop_stack }

/-- Append one entry to the action log (`context.report_action`). -/
def Context.reportAction (ctx : Context) (cat desc src : String) : Context :=
  { ctx with actions := ctx.actions ++ [(cat, desc, src)] }

/-- Open-file table lookup keyed by Python equality. -/
def lookupFile : List (Value × FileEntry) → Value → Option FileEntry
  | [], _ => none
  | (k, e) :: rest, fid => if pyEq k fid then some e else lookupFile rest fid

/-- Open-file table upsert (Python `dict.__setitem__`: replaces in place). -/
def upsertFile : List (Value × FileEntry) → Value → FileEntry → List (Value × FileEntry)
  | [], fid, e => [(fid, e)]
  | (k, e0) :: rest, fid, e =>
      if pyEq k fid then (k, e) :: rest else (k, e0) :: upsertFile rest fid e

/-- Replace an open-file entry (`context.open_files[fid] = ...`). -/
def Context.setFile (ctx : Context) (fid : Value) (e : FileEntry) : Context :=
  { ctx with open_files := upsertFile ctx.open_files fid e }

/-- Expressions, seen by the statement engine only through the external
"evaluate expression to value" capability (`eval_arg`).  `lit` and `var` are
the shapes the claims need, `add` models the evaluator's arithmetic and
concatenation, and `err` models an expression whose evaluation raises (the
spec and `Case_Clause.eval` both account for member expressions that "fail
to evaluate"). -/
inductive Expr where
  | lit : Value → Expr
  | var : String → Expr
  | add : Expr → Expr → Expr
  | err : Expr

/-- Python `+` on the modelled values. -/
def pyAdd : Value → Value → Except EvalErr Value
  | .vInt a, .vInt b => .ok (.vInt (a + b))
  | .vStr a, .vStr b => .ok (.vStr (a ++ b))
  | .vList a, .vList b => .ok (.vList (a ++ b))
  | _, _ => .error .typeError

/-- Modelled from the spec: the external expression evaluator `eval_arg`
(expressions.py is not part of the given source).  Literals evaluate to
themselves; a variable reference yields the variable's value, or the
reference text itself when the variable is absent (the evaluator recovers
expected-absent names per spec section 7 instead of raising); `err` raises. -/
def evalArg : Expr → Context → Except EvalErr Value
  | .lit v, _ => .ok v
  | .var n, ctx =>
      match ctx.get n with
      | some v => .ok v
      | none => .ok (.vStr n)
  | .add a b, ctx =>
      match evalArg a ctx with
      | .error e => .error e
      | .ok x =>
          match evalArg b ctx with
          | .error e => .error e
          | .ok y => pyAdd x y
  | .err, _ => .error .valueError

/-- `eval_args`: evaluate a list of argument expressions in order; the first
raising expression aborts with its exception. -/
def evalArgs : List Expr → Context → Except EvalErr (List Value)
  | [], _ => .ok []
  | e :: rest, ctx =>
      match evalArg e ctx with
      | .error er => .error er
      | .ok v =>
          match evalArgs rest ctx with
          | .error er => .error er
          | .ok vs => .ok (v :: vs)

/-- Python `int(...)` as applied by the engine to an evaluated value
(digit-string parsing approximates the Python behaviour; a list raises
TypeError). -/
def pyToInt : Value → Except EvalErr Int
  | .vInt i => .ok i
  | .vStr s => match s.toInt? with | some i => .ok i | none => .error .valueError
  | .vList _ => .error .typeError

/-- Python 2 `chr(...)`: defined on integers 0..255, ValueError outside,
TypeError on non-integers. -/
def chrOf : Value → Except EvalErr Char
  | .vInt i =>
      if 0 ≤ i ∧ i < 256 then .ok (Char.ofNat i.toNat) else .error .valueError
  | _ => .error .typeError

/-- Python 2 `v <= end` as used for the For-loop guard: an integer index
compares normally, while any non-numeric value compares greater than the
integer bound (so the guard is False). -/
def pyLE (v : Value) (e : Int) : Bool :=
  match v with
  | .vInt i => decide (i ≤ e)
  | _ => false

/-- Python slice `l[:i]` (negative indices count from the end, clamped). -/
def pySliceTo (l : List Value) (i : Int) : List Value :=
  if i < 0 then l.take ((l.length : Int) + i).toNat else l.take i.toNat

/-- Python slice `l[i:]`. -/
def pySliceFrom (l : List Value) (i : Int) : List Value :=
  if i < 0 then l.drop ((l.length : Int) + i).toNat else l.drop i.toNat

/-- Python slice `cs[:i]` on character lists. -/
def pySliceToC (l : List Char) (i : Int) : List Char :=
  if i < 0 then l.take ((l.length : Int) + i).toNat else l.take i.toNat

/-- Python slice `cs[i:]` on character lists. -/
def pySliceFromC (l : List Char) (i : Int) : List Char :=
  if i < 0 then l.drop ((l.length : Int) + i).toNat else l.drop i.toNat

/-- Let_Statement.eval, Byte-Array coercion: a text value assigned to a
variable declared "Byte Array" becomes the flat list of character codes each
followed by a zero byte (statements.py lines 496-502). -/
def encodeBytes (s : String) : List Value :=
  s.data.foldr (fun c acc => Value.vInt c.toNat :: Value.vInt 0 :: acc) []

/-- Let_Statement.eval, String coercion, first attempt: read the integer list
as UTF-16-style code units stepping by 2 (`while pos < len: tmp += chr(value[pos]);
pos += 2`, lines 515-524); a chr failure raises into the surrounding
`except: pass`. -/
def decode16 : List Value → Except EvalErr (List Char)
  | [] => .ok []
  | [v] =>
      match chrOf v with
      | .error e => .error e
      | .ok c => .ok [c]
  | v :: _ :: rest =>
      match chrOf v with
      | .error e => .error e
      | .ok c =>
          match decode16 rest with
          | .error e => .error e
          | .ok cs => .ok (c :: cs)

/-- Let_Statement.eval, String coercion (lines 504-538): integer lists are
decoded by `decode16` (failure keeps the list), then the all-characters pass
joins a sequence of at-most-one-character strings. -/
def decodeListToStr (l : List Value) : Value :=
  let all_ints := l.all (fun v => match v with | .vInt _ => true | _ => false)
  let v1 : Value :=
    if all_ints then
      match decode16 l with
      | .ok cs => .vStr ⟨cs⟩
      | .error _ => .vList l
    else .vList l
  match v1 with
  | .vStr s =>
      let parts := s.data.map (fun c => [c])
      if parts.all (fun t => decide (t.length ≤ 1)) then .vStr ⟨parts.flatten⟩ else .vStr s
  | .vList l2 =>
      let all_chars := l2.all (fun v => match v with | .vStr t => decide (t.length ≤ 1) | _ => false)
      if all_chars then
        .vStr ⟨(l2.map (fun v => match v with | .vStr t => t.data | _ => [])).flatten⟩
      else .vList l2
  | v => v

/-- Let_Statement.eval, indexed assignment on a list target
(lines 563-571): zero-extend to the index if needed, then splice the value
in via Python slices. -/
def listIndexAssign (l : List Value) (index : Int) (value : Value) : List Value :=
  let l1 :=
    if (l.length : Int) ≤ index then l ++ List.replicate (index - l.length).toNat (Value.vInt 0)
    else l
  pySliceTo l1 index ++ [value] ++ pySliceFrom l1 (index + 1)

/-- Let_Statement.eval, indexed assignment on a string target
(lines 573-591): NUL-pad to the index if needed, then splice in a string
value or the character of an integer value; a chr failure or an unhandled
value type is logged and the padded string is stored unchanged. -/
def strIndexAssign (cs : List Char) (index : Int) (value : Value) : List Char :=
  let cs1 :=
    if (cs.length : Int) ≤ index then cs ++ List.replicate (index - cs.length).toNat (Char.ofNat 0)
    else cs
  match value with
  | .vStr t => pySliceToC cs1 index ++ t.data ++ pySliceFromC cs1 (index + 1)
  | .vInt i =>
      if 0 ≤ i ∧ i < 256 then pySliceToC cs1 index ++ [Char.ofNat i.toNat] ++ pySliceFromC cs1 (index + 1)
      else cs1
  | _ => cs1

/-- The statement kinds the claims are about, as parsed by statements.py.
`exitFor` and `exitDo` are distinct statements with the identical
Exit_For_Statement.eval behaviour. -/
inductive Stmt where
  | letStmt : String → Option Expr → Expr → Stmt
  | forStmt : String → Expr → Expr → Option Expr → List Stmt → Stmt
  | forEach : String → Expr → List Stmt → Stmt
  | exitFor : Stmt
  | exitDo : Stmt
  | callStmt : String → List Expr → Stmt
  | fileOpen : String → Value → Stmt
  | printStmt : Expr → Expr → Stmt

/-- The outcome of one evaluation step: the Context as mutated so far, an
optional propagating Python exception, and (for statement-block runs inside
a loop) whether the loop's body signalled done via the loop-exit stack. -/
structure StepOut where
  ctx : Context
  err : Option EvalErr
  done : Bool

/-- Exit_For_Statement.eval / Exit_While_Statement.eval (lines 1355-1358):
`loop_stack.pop()` then `append(False)`, i.e. flip the top entry to False;
pop on an empty stack raises IndexError. -/
def exitForEval (ctx : Context) : StepOut :=
  match ctx.loop_stack with
  | [] => ⟨ctx, some .indexError, false⟩
  | _ :: rest => ⟨{ ctx with loop_stack := false :: rest }, none, false⟩

/-- The unconditional `loop_stack.pop()` a loop statement performs when its
body loop finishes (IndexError when the stack is empty). -/
def popLoopOut (ctx : Context) : StepOut :=
  match ctx.loop_stack with
  | [] => ⟨ctx, some .indexError, false⟩
  | _ :: rest => ⟨{ ctx with loop_stack := rest }, none, false⟩

/-- Let_Statement.eval (lines 485-594). -/
def letEval (name : String) (idxE : Option Expr) (rhs : Expr) (ctx : Context) : StepOut :=
  match evalArg rhs ctx with
  | .error er => ⟨ctx, some er, false⟩
  | .ok value =>
      match idxE with
      | none =>
          let v1 :=
            if ctx.get_type name = some "Byte Array" then
              match value with
              | .vStr s => Value.vList (encodeBytes s)
              | _ => value
            else value
          let v2 :=
            if ctx.get_type name = some "String" then
              match v1 with
              | .vList l => decodeListToStr l
              | _ => v1
            else v1
          ⟨ctx.set name v2, none, false⟩
      | some ie =>
          match evalArg ie ctx with
          | .error er => ⟨ctx, some er, false⟩
          | .ok iv =>
              match pyToInt iv with
              | .error er => ⟨ctx, some er, false⟩
              | .ok index =>
                  match ctx.get name with
                  | some (.vList l) => ⟨ctx.set name (.vList (listIndexAssign l index value)), none, false⟩
                  | some (.vStr s) => ⟨ctx.set name (.vStr ⟨strIndexAssign s.data index value⟩), none, false⟩
                  | _ => ⟨ctx.set name (.vList (listIndexAssign [] index value)), none, false⟩

mutual

/-- Python `repr` of a value, used only as the opaque text of reported
actions (escaping is not reproduced). -/
def pyRepr : Value → String
  | .vInt i => toString i
  | .vStr s => "\x27" ++ s ++ "\x27"
  | .vList [] => "[]"
  | .vList (v :: rest) => "[" ++ pyRepr v ++ pyReprRest rest ++ "]"

/-- Tail of a Python list repr. -/
def pyReprRest : List Value → String
  | [] => ""
  | v :: rest => ", " ++ pyRepr v ++ pyReprRest rest

end

/-- Call_Statement.eval name normalization (lines 1305-1308): strip `$`,
`VBA.`, `Math.`, brackets and quotes, then keep only the suffix after the
last dot. -/
def normalizeName (name : String) : String :=
  let t := ((((name.replace "$" "").replace "VBA." "").replace "Math." "").replace "[" "").replace "]" ""
  let t := (t.replace "\x27" "").replace "\x22" ""
  if t.contains '.' then (t.splitOn ".").getLastD t else t

/-- `.Write` payload normalization (lines 1292-1298): strip NUL bytes from
string arguments. -/
def stripNulls (v : Value) : Value :=
  match v with
  | .vStr s => .vStr (s.replace "\x00" "")
  | _ => v

/-- Call_Statement.eval (lines 1276-1333).  Invoking a procedure that the
lookup chain resolves is Modelled from the spec: procedure bodies live in the
external procedure evaluator (procedures.py is not part of the given
source), so a resolved call is modelled as completing normally. -/
def callEval (name : String) (params : List Expr) (ctx : Context) : StepOut :=
  match evalArgs params ctx with
  | .error er => ⟨ctx, some er, false⟩
  | .ok call_params =>
      if pyLower name = "msgbox" then
        match call_params.head? with
        | none => ⟨ctx, some .indexError, false⟩
        | some p => ⟨ctx.reportAction "Display Message" (pyRepr p) "MsgBox", none, false⟩
      else
        let ctx1 :=
          if name.contains '.' then
            let tmp := if name.endsWith ".Write" then call_params.map stripNulls else call_params
            ctx.reportAction "Object.Method Call" (pyRepr (.vList tmp)) name
          else ctx
        match ctx1.get name with
        | some _ => ⟨ctx1, none, false⟩
        | none =>
            match ctx1.get (normalizeName name) with
            | some _ => ⟨ctx1, none, false⟩
            | none =>
                if name = "Application.Run" ∨ name = "Run" then
                  match call_params.head? with
                  | none => ⟨ctx1, some .indexError, false⟩
                  | some _ => ⟨ctx1, none, false⟩
                else ⟨ctx1, none, false⟩

/-- File_Open.eval file-name resolution (lines 1551-1558): `eval_arg` of the
plain identifier token yields the token itself, then a successful variable
lookup overrides it (KeyError caught). -/
def fileOpenName (fn : String) (ctx : Context) : Value :=
  match ctx.get fn with
  | some v => v
  | none => .vStr fn

/-- File_Open.eval (lines 1546-1563): unconditionally (re)create the
open-file entry with the evaluated name and empty contents. -/
def fileOpenEval (fn : String) (fid : Value) (ctx : Context) : StepOut :=
  ⟨ctx.setFile fid ⟨fileOpenName fn ctx, []⟩, none, false⟩

/-- Print_Statement.eval (lines 1587-1607): append string character codes or
raw list elements to the addressed open-file entry; looking up an unopened
handle raises KeyError (uncaught); other data shapes are logged and
dropped. -/
def printEval (fidE : Expr) (valE : Expr) (ctx : Context) : StepOut :=
  match evalArg fidE ctx with
  | .error er => ⟨ctx, some er, false⟩
  | .ok fid =>
      match evalArg valE ctx with
      | .error er => ⟨ctx, some er, false⟩
      | .ok data =>
          match data with
          | .vStr s =>
              match s.data with
              | [] => ⟨ctx, none, false⟩
              | _ =>
                  match lookupFile ctx.open_files fid with
                  | none => ⟨ctx, some .keyError, false⟩
                  | some entry =>
                      ⟨ctx.setFile fid ⟨entry.name, entry.contents ++ s.data.map (fun c => Value.vInt c.toNat)⟩,
                       none, false⟩
          | .vList l =>
              match l with
              | [] => ⟨ctx, none, false⟩
              | _ =>
                  match lookupFile ctx.open_files fid with
                  | none => ⟨ctx, some .keyError, false⟩
                  | some entry => ⟨ctx.setFile fid ⟨entry.name, entry.contents ++ l⟩, none, false⟩
          | _ => ⟨ctx, none, false⟩

/-- For_Each_Statement.eval container iteration (`for item_val in container`):
lists iterate over their elements, strings over their one-character
substrings, anything else raises TypeError into the bare `except`. -/
def toItems : Value → Option (List Value)
  | .vList l => some l
  | .vStr s => some (s.data.map (fun c => Value.vStr (String.singleton c)))
  | _ => none

/-- For_Each_Statement.eval container resolution (lines 773-783):
`eval_arg` of the container expression runs unguarded (its exceptions
propagate), then `context.get(self.container)` overrides the result when the
container is a plain variable token and the lookup succeeds (KeyError
caught). -/
def forEachResolve (e : Expr) (ctx : Context) : Except EvalErr Value :=
  match evalArg e ctx with
  | .error er => .error er
  | .ok c0 =>
      .ok (match e with
           | .var n => match ctx.get n with | some w => w | none => c0
           | _ => c0)

/-- The mutually recursive pieces of statement evaluation, packed into one
fuel-indexed function so the recursion is structural on the fuel:
`stmt` is a single statement's eval, `seq` is the per-statement body loop of
the loop statements (running statements until one flips the loop-exit
stack's top, lines 680-690), `forLoop` is For_Statement.eval's `while` loop
(lines 675-698) and `eachLoop` is For_Each_Statement.eval's container loop
(lines 787-809). -/
inductive Task where
  | stmt : Stmt → Task
  | seq : List Stmt → Task
  | forLoop : String → Int → Value → List Stmt → Task
  | eachLoop : String → List Value → List Stmt → Task

/-- The statement execution engine.  `none` is fuel exhaustion (meta-level
only); otherwise the result is the mutated Context plus an optional
propagating exception. -/
def evalCore : Nat → Task → Context → Option StepOut
  | 0, _, _ => none
  | f + 1, t, ctx =>
      match t with
      | .stmt s =>
          match s with
          | .letStmt n i e => some (letEval n i e ctx)
          | .callStmt n ps => some (callEval n ps ctx)
          | .exitFor => some (exitForEval ctx)
          | .exitDo => some (exitForEval ctx)
          | .fileOpen fn fid => some (fileOpenEval fn fid ctx)
          | .printStmt fe ve => some (printEval fe ve ctx)
          | .forStmt name startE endE stepE body =>
              match evalArg startE ctx with
              | .error er => some ⟨ctx, some er, false⟩
              | .ok start =>
                  match evalArg endE ctx with
                  | .error er => some ⟨ctx, some er, false⟩
                  | .ok end0 =>
                      let endI : Int := match end0 with | .vInt i => i | _ => 0
                      let endC : Int :=
                        if 0 < ctx.loop_upper_bound ∧ ctx.loop_upper_bound < endI then
                          ctx.loop_upper_bound
                        else endI
                      match (match stepE with | none => Except.ok (Value.vInt 1) | some se => evalArg se ctx) with
                      | .error er => some ⟨ctx, some er, false⟩
                      | .ok step =>
                          match evalCore f (.forLoop name endC step body) ((ctx.pushLoop true).set name start) with
                          | none => none
                          | some ⟨c1, some er, _⟩ => some ⟨c1, some er, false⟩
                          | some ⟨c1, none, _⟩ => some (popLoopOut c1)
          | .forEach item contE body =>
              let ctx1 := ctx.pushLoop true
              match forEachResolve contE ctx1 with
              | .error er => some ⟨ctx1, some er, false⟩
              | .ok cEff =>
                  match toItems cEff with
                  | none => some (popLoopOut ctx1)
                  | some items =>
                      match evalCore f (.eachLoop item items body) ctx1 with
                      | none => none
                      | some ⟨c2, _, _⟩ => some (popLoopOut c2)
      | .seq ss =>
          match ss with
          | [] => some ⟨ctx, none, false⟩
          | s :: rest =>
              match evalCore f (.stmt s) ctx with
              | none => none
              | some ⟨c1, some er, _⟩ => some ⟨c1, some er, false⟩
              | some ⟨c1, none, _⟩ =>
                  match c1.loop_stack.head? with
                  | none => some ⟨c1, some .indexError, false⟩
                  | some top =>
                      if top then evalCore f (.seq rest) c1 else some ⟨c1, none, true⟩
      | .forLoop name endv step body =>
          match ctx.get name with
          | none => some ⟨ctx, some .keyError, false⟩
          | some v =>
              if pyLE v endv then
                match evalCore f (.seq body) ctx with
                | none => none
                | some ⟨c1, some er, _⟩ => some ⟨c1, some er, false⟩
                | some ⟨c1, none, done⟩ =>
                    if done then some ⟨c1, none, false⟩
                    else
                      match c1.get name with
                      | none => some ⟨c1, some .keyError, false⟩
                      | some val =>
                          match pyAdd val step with
                          | .error er => some ⟨c1, some er, false⟩
                          | .ok v2 => evalCore f (.forLoop name endv step body) (c1.set name v2)
              else some ⟨ctx, none, false⟩
      | .eachLoop item items body =>
          match items with
          | [] => some ⟨ctx, none, false⟩
          | v :: rest =>
              match evalCore f (.seq body) (ctx.set item v) with
              | none => none
              | some ⟨c2, some er, _⟩ => some ⟨c2, some er, false⟩
              | some ⟨c2, none, done⟩ =>
                  if done then some ⟨c2, none, false⟩
                  else evalCore f (.eachLoop item rest body) c2

/-- Evaluate one statement against a Context (the `evaluate(context)`
capability of the statement AST). -/
def evalStmt (fuel : Nat) (s : Stmt) (ctx : Context) : Option StepOut :=
  evalCore fuel (.stmt s) ctx

/-- A Select-Case case clause (Case_Clause.__init__, lines 1012-1023): the
member expressions plus the range/set/else classification flags computed
once at construction from the parsed shape. -/
structure CaseClause where
  case_val : List Expr
  test_range : Bool
  test_set : Bool
  is_else : Bool

/-- Case_Clause.eval set-case member collection (lines 1072-1078): each
member is evaluated and added to a Python set inside a bare `try`; both an
exception raised by `eval_arg` and the TypeError that `set.add` raises on
an unhashable (list-valued) member are caught at the first bad member and
make the whole case non-matching (`except: return False`). -/
def evalMembers : List Expr → Context → Except EvalErr (List Value)
  | [], _ => .ok []
  | e :: rest, ctx =>
      match evalArg e ctx with
      | .error er => .error er
      | .ok v =>
          if pyHashable v then
            match evalMembers rest ctx with
            | .error er => .error er
            | .ok vs => .ok (v :: vs)
          else .error .typeError

/-- Python `test_val in expected_vals` on a set (line 1081): the probe is
hashed first, so an unhashable (list-valued) select value raises TypeError;
otherwise membership by equality (all set elements are hashable, so list
membership by `pyEq` coincides with set membership). -/
def pySetContains (v : Value) (vs : List Value) : Except EvalErr Bool :=
  if pyHashable v then .ok (vs.any (fun w => pyEq v w)) else .error .typeError

/-- Case_Clause.eval (lines 1041-1085): test the already-evaluated select
value against this clause.  The else clause always matches; a range clause
matches integers inside the evaluated bounds and is non-matching when a
bound fails to evaluate or convert; a set clause is non-matching as soon as
one member fails to evaluate or to be added to the set (unhashable), while
its final set-membership test runs unguarded, so a TypeError on an
unhashable select value propagates; the singleton clause's member
evaluation is not guarded either, so its exceptions propagate. -/
def caseClauseEval (c : CaseClause) (ctx : Context) (test_val : Value) : Except EvalErr Bool :=
  if c.is_else then .ok true
  else if c.test_range then
    match c.case_val.head?, c.case_val.tail.head? with
    | some e0, some e1 =>
        match (match evalArg e0 ctx with | .error er => .error er | .ok v => pyToInt v : Except EvalErr Int) with
        | .error _ => .ok false
        | .ok lo =>
            match (match evalArg e1 ctx with | .error er => .error er | .ok v => pyToInt v : Except EvalErr Int) with
            | .error _ => .ok false
            | .ok hi =>
                .ok (match test_val with
                     | .vInt i => decide (lo ≤ i ∧ i < hi + 1)
                     | _ => false)
    | _, _ => .ok false
  else if c.test_set then
    match evalMembers c.case_val ctx with
    | .error _ => .ok false
    | .ok vals =>
        match pySetContains test_val vals with
        | .error er => .error er
        | .ok b => .ok b
  else
    match c.case_val.head? with
    | none => .error .indexError
    | some e0 =>
        match evalArg e0 ctx with
        | .error er => .error er
        | .ok expected => .ok (pyEq test_val expected)

/-! ## Fixture programs and contexts used by the claims -/

/-- A fresh Context: nothing defined, loop cap disabled. -/
def emptyContext : Context := ⟨[], [], [], "", [], [], false, 0⟩

/-- The instrumentation statement `v = v + 1`. -/
def incrStmt (v : String) : Stmt := .letStmt v none (.add (.var v) (.lit (.vInt 1)))

/-- C2 fixture context: a counter, the loop index, and a configured loop
upper bound `B`. -/
def countCtx (B c i : Int) (stk : List Bool) : Context :=
  ⟨[("c", .vInt c), ("i", .vInt i)], [], stk, "", [], [], false, B⟩

/-- C4 fixture context: a variable declared "Byte Array" and a variable
declared "String" (as a Dim statement would record them). -/
def roundCtx : Context :=
  ⟨[("b", .vInt 0), ("r", .vInt 0)], [("b", "Byte Array"), ("r", "String")], [], "", [], [], false, 0⟩

/-- C3 fixture context: instrumentation counters plus both loop indexes;
the loop cap is disabled. -/
def nestCtx (a b c d i j : Int) (stk : List Bool) : Context :=
  ⟨[("outerPre", .vInt a), ("inner", .vInt b), ("dead", .vInt c), ("outerPost", .vInt d),
    ("i", .vInt i), ("j", .vInt j)], [], stk, "", [], [], false, 0⟩

/-- The inner For loop of the C3 scenario: its body bumps a counter, exits,
and would bump a second counter if anything ran after Exit For. -/
def innerFor (m : Int) : Stmt :=
  .forStmt "j" (.lit (.vInt 1)) (.lit (.vInt m)) none
    [incrStmt "inner", .exitFor, incrStmt "dead"]

/-- The outer loop body of the C3 scenario: counter, inner loop, counter. -/
def outerBody (m : Int) : List Stmt :=
  [incrStmt "outerPre", innerFor m, incrStmt "outerPost"]

/-- The nested pair of For loops of the C3 scenario. -/
def nestedFor (n m : Int) : Stmt :=
  .forStmt "i" (.lit (.vInt 1)) (.lit (.vInt n)) none (outerBody m)

/-! ## Helper lemmas -/

mutual

/-- Python equality is reflexive on the modelled values. -/
theorem pyEq_refl : ∀ v, pyEq v v = true
  | .vInt _ => by simp [pyEq]
  | .vStr _ => by simp [pyEq]
  | .vList l => pyEqList_refl l

/-- Python equality is reflexive on lists of modelled values. -/
theorem pyEqList_refl : ∀ l, pyEqList l l = true
  | [] => rfl
  | a :: as => by
      rw [pyEqList, pyEq_refl a, pyEqList_refl as]
      rfl

end

/-- Looking up a handle right after upserting it yields the new entry. -/
theorem lookupFile_upsertFile (fs : List (Value × FileEntry)) (fid : Value) (e : FileEntry) :
    lookupFile (upsertFile fs fid e) fid = some e := by
  induction fs with
  | nil => simp [upsertFile, lookupFile, pyEq_refl]
  | cons p rest ih =>
      obtain ⟨k, e0⟩ := p
      by_cases h : pyEq k fid = true
      · simp [upsertFile, lookupFile, h]
      · rw [Bool.not_eq_true] at h
        simp [upsertFile, lookupFile, h, ih]

/-- One unfolding step of the engine on a For-Each statement. -/
theorem evalCore_stmt_forEach (f : Nat) (item : String) (contE : Expr) (body : List Stmt)
    (ctx : Context) :
    evalCore (f + 1) (.stmt (.forEach item contE body)) ctx =
      match forEachResolve contE (ctx.pushLoop true) with
      | .error er => some ⟨ctx.pushLoop true, some er, false⟩
      | .ok cEff =>
          match toItems cEff with
          | none => some (popLoopOut (ctx.pushLoop true))
          | some items =>
              match evalCore f (.eachLoop item items body) (ctx.pushLoop true) with
              | none => none
              | some ⟨c2, _, _⟩ => some (popLoopOut c2) := rfl

/-- One unfolding step of the engine on an empty statement block. -/
theorem evalCore_seq_nil (f : Nat) (ctx : Context) :
    evalCore (f + 1) (.seq []) ctx = some ⟨ctx, none, false⟩ := rfl

/-- One unfolding step of the engine on a statement block: run the first
statement, then check the loop-exit stack's top before continuing. -/
theorem evalCore_seq_cons (f : Nat) (s : Stmt) (rest : List Stmt) (ctx : Context) :
    evalCore (f + 1) (.seq (s :: rest)) ctx =
      match evalCore f (.stmt s) ctx with
      | none => none
      | some ⟨c1, some er, _⟩ => some ⟨c1, some er, false⟩
      | some ⟨c1, none, _⟩ =>
          match c1.loop_stack.head? with
          | none => some ⟨c1, some .indexError, false⟩
          | some top => if top then evalCore f (.seq rest) c1 else some ⟨c1, none, true⟩ := rfl

/-- One unfolding step of the For loop's `while` loop. -/
theorem evalCore_forLoop (f : Nat) (name : String) (endv : Int) (step : Value)
    (body : List Stmt) (ctx : Context) :
    evalCore (f + 1) (.forLoop name endv step body) ctx =
      match ctx.get name with
      | none => some ⟨ctx, some .keyError, false⟩
      | some v =>
          if pyLE v endv then
            match evalCore f (.seq body) ctx with
            | none => none
            | some ⟨c1, some er, _⟩ => some ⟨c1, some er, false⟩
            | some ⟨c1, none, done⟩ =>
                if done then some ⟨c1, none, false⟩
                else
                  match c1.get name with
                  | none => some ⟨c1, some .keyError, false⟩
                  | some val =>
                      match pyAdd val step with
                      | .error er => some ⟨c1, some er, false⟩
                      | .ok v2 => evalCore f (.forLoop name endv step body) (c1.set name v2)
          else some ⟨ctx, none, false⟩ := rfl

/-- Reading the loop index of the C2 fixture. -/
theorem countCtx_get_i (B c i : Int) (stk : List Bool) :
    (countCtx B c i stk).get "i" = some (.vInt i) := rfl

/-- Evaluating the counter increment in the C2 fixture. -/
theorem incr_c_eval (f : Nat) (B c i : Int) (stk : List Bool) :
    evalCore (f + 1) (.stmt (incrStmt "c")) (countCtx B c i stk) =
      some ⟨countCtx B (c + 1) i stk, none, false⟩ := rfl

/-- Unrolling of the counting For loop: starting at index `i ≤ E` with
`(E - i).toNat = k`, the loop body runs `k + 1` times and the index ends
just past the bound. -/
theorem countLoop (B E : Int) : ∀ (k g : Nat) (c i : Int) (stk : List Bool),
    i ≤ E → (E - i).toNat = k →
    evalCore (g + k + 3) (.forLoop "i" E (.vInt 1) [incrStmt "c"]) (countCtx B c i (true :: stk)) =
      some ⟨countCtx B (c + (k + 1)) (E + 1) (true :: stk), none, false⟩ := by
  intro k
  induction k with
  | zero =>
      intro g c i stk hle hk
      have hie : i = E := by omega
      subst hie
      rw [evalCore_forLoop, countCtx_get_i]
      dsimp only [pyLE]
      rw [if_pos (decide_eq_true hle)]
      rw [evalCore_seq_cons, incr_c_eval]
      show evalCore ((g + 1) + 1) (.forLoop "i" i (.vInt 1) [incrStmt "c"])
        (countCtx B (c + 1) (i + 1) (true :: stk)) = _
      rw [evalCore_forLoop, countCtx_get_i]
      dsimp only [pyLE]
      rw [if_neg (by simp only [decide_eq_true_eq]; omega : ¬ (decide (i + 1 ≤ i) = true))]
      simp
  | succ k2 ih =>
      intro g c i stk hle hk
      rw [evalCore_forLoop, countCtx_get_i]
      dsimp only [pyLE]
      rw [if_pos (decide_eq_true hle)]
      rw [evalCore_seq_cons, incr_c_eval]
      show evalCore (g + k2 + 3) (.forLoop "i" E (.vInt 1) [incrStmt "c"])
        (countCtx B (c + 1) (i + 1) (true :: stk)) = _
      rw [ih g (c + 1) (i + 1) stk (by omega) (by omega)]
      rw [show c + 1 + ((k2 : Int) + 1) = c + (((k2 + 1 : Nat) : Int) + 1) by push_cast; ring]

/-- Stepping: For statement entry at the C2 loop shape, exposing the
end-bound cap (`VBA_Object.loop_upper_bound`) applied before the loop. -/
theorem c2_entry (f : Nat) (B s e : Int) :
    evalCore (f + 1)
        (.stmt (.forStmt "i" (.lit (.vInt s)) (.lit (.vInt e)) none [incrStmt "c"]))
        (countCtx B 0 0 []) =
      (match evalCore f (.forLoop "i" (if 0 < B ∧ B < e then B else e) (.vInt 1) [incrStmt "c"])
          (countCtx B 0 s [true]) with
       | none => none
       | some ⟨c1, some er, _⟩ => some ⟨c1, some er, false⟩
       | some ⟨c1, none, _⟩ => some (popLoopOut c1)) := rfl

/-- Reading the outer loop index of the C3 fixture. -/
theorem nestCtx_get_i (a b c d i j : Int) (stk : List Bool) :
    (nestCtx a b c d i j stk).get "i" = some (.vInt i) := rfl

/-- Reading the inner loop index of the C3 fixture. -/
theorem nestCtx_get_j (a b c d i j : Int) (stk : List Bool) :
    (nestCtx a b c d i j stk).get "j" = some (.vInt j) := rfl

/-- Stepping: inner For entry (the cap is disabled in the C3 fixture). -/
theorem innerFor_entry (f : Nat) (m : Int) (a b c d i j : Int) (stk : List Bool) :
    evalCore (f + 1) (.stmt (innerFor m)) (nestCtx a b c d i j stk) =
      (match evalCore f (.forLoop "j" m (.vInt 1) [incrStmt "inner", .exitFor, incrStmt "dead"])
          (nestCtx a b c d i 1 (true :: stk)) with
       | none => none
       | some ⟨c1, some er, _⟩ => some ⟨c1, some er, false⟩
       | some ⟨c1, none, _⟩ => some (popLoopOut c1)) := rfl

/-- One full run of the inner For loop: with at least one iteration
available it bumps the inner counter once, the Exit For stops it before the
dead counter and before any further iteration, and the inner loop's own
stack entry is pushed, flipped and popped, leaving the stack as it was. -/
theorem innerForRun (m : Int) (hm : 1 ≤ m) (f : Nat) (a b c d i j : Int) (stk : List Bool) :
    evalCore (f + 5) (.stmt (innerFor m)) (nestCtx a b c d i j stk) =
      some ⟨nestCtx a (b + 1) c d i 1 stk, none, false⟩ := by
  show evalCore ((f + 4) + 1) _ _ = _
  rw [innerFor_entry, evalCore_forLoop, nestCtx_get_j]
  dsimp only [pyLE]
  rw [if_pos (decide_eq_true hm)]
  rfl

/-- One pass of the outer loop body: both outer counters are bumped, the
inner loop runs exactly once, and the outer loop's stack entry survives. -/
theorem outerBodyRun (m : Int) (hm : 1 ≤ m) (f : Nat) (a b c d i j : Int) (stk : List Bool) :
    evalCore (f + 7) (.seq (outerBody m)) (nestCtx a b c d i j (true :: stk)) =
      some ⟨nestCtx (a + 1) (b + 1) c (d + 1) i 1 (true :: stk), none, false⟩ := by
  show (match evalCore (f + 5) (.stmt (innerFor m)) (nestCtx (a + 1) b c d i j (true :: stk)) with
        | none => none
        | some ⟨c1, some er, _⟩ => some ⟨c1, some er, false⟩
        | some ⟨c1, none, _⟩ =>
            match c1.loop_stack.head? with
            | none => some ⟨c1, some .indexError, false⟩
            | some top =>
                if top then evalCore (f + 5) (.seq [incrStmt "outerPost"]) c1
                else some ⟨c1, none, true⟩ : Option StepOut) = _
  rw [innerForRun m hm f (a + 1) b c d i j (true :: stk)]
  rfl

/-- Unrolling of the outer For loop of the C3 scenario. -/
theorem outerLoop (n m : Int) (hm : 1 ≤ m) : ∀ (k g : Nat) (a b c d i j : Int) (stk : List Bool),
    i ≤ n → (n - i).toNat = k →
    evalCore (g + k + 8) (.forLoop "i" n (.vInt 1) (outerBody m)) (nestCtx a b c d i j (true :: stk)) =
      some ⟨nestCtx (a + (k + 1)) (b + (k + 1)) c (d + (k + 1)) (n + 1) 1 (true :: stk),
            none, false⟩ := by
  intro k
  induction k with
  | zero =>
      intro g a b c d i j stk hle hk
      have hie : i = n := by omega
      subst hie
      rw [evalCore_forLoop, nestCtx_get_i]
      dsimp only [pyLE]
      rw [if_pos (decide_eq_true hle)]
      rw [outerBodyRun m hm g]
      show evalCore ((g + 6) + 1) (.forLoop "i" i (.vInt 1) (outerBody m))
        (nestCtx (a + 1) (b + 1) c (d + 1) (i + 1) 1 (true :: stk)) = _
      rw [evalCore_forLoop, nestCtx_get_i]
      dsimp only [pyLE]
      rw [if_neg (by simp only [decide_eq_true_eq]; omega : ¬ (decide (i + 1 ≤ i) = true))]
      simp
  | succ k2 ih =>
      intro g a b c d i j stk hle hk
      rw [evalCore_forLoop, nestCtx_get_i]
      dsimp only [pyLE]
      rw [if_pos (decide_eq_true hle)]
      rw [outerBodyRun m hm]
      show evalCore (g + k2 + 8) (.forLoop "i" n (.vInt 1) (outerBody m))
        (nestCtx (a + 1) (b + 1) c (d + 1) (i + 1) 1 (true :: stk)) = _
      rw [ih g (a + 1) (b + 1) c (d + 1) (i + 1) 1 stk (by omega) (by omega)]
      have harr : ∀ x : Int, x + 1 + ((k2 : Int) + 1) = x + (((k2 + 1 : Nat) : Int) + 1) :=
        fun x => by push_cast; ring
      rw [harr a, harr b, harr d]

/-- Stepping: nested For entry for the C3 scenario. -/
theorem nestedFor_entry (f : Nat) (n m : Int) :
    evalCore (f + 1) (.stmt (nestedFor n m)) (nestCtx 0 0 0 0 0 0 []) =
      (match evalCore f (.forLoop "i" n (.vInt 1) (outerBody m)) (nestCtx 0 0 0 0 1 0 [true]) with
       | none => none
       | some ⟨c1, some er, _⟩ => some ⟨c1, some er, false⟩
       | some ⟨c1, none, _⟩ => some (popLoopOut c1)) := rfl

/-- The list splice of an indexed assignment that points at or beyond the
end of the current list: the zero-extension makes the list exactly `idx`
long, so the splice appends the value. -/
theorem listIndexAssign_extend (l : List Value) (idx : Int) (v : Value)
    (h : (l.length : Int) ≤ idx) :
    listIndexAssign l idx v =
      l ++ List.replicate (idx - l.length).toNat (.vInt 0) ++ [v] := by
  have h0 : 0 ≤ idx := le_trans (Int.ofNat_nonneg l.length) h
  have hlen : (l ++ List.replicate (idx - l.length).toNat (Value.vInt 0)).length = idx.toNat := by
    simp only [List.length_append, List.length_replicate]
    omega
  unfold listIndexAssign pySliceTo pySliceFrom
  rw [if_pos h]
  dsimp only
  rw [if_neg (by omega : ¬ idx < 0), if_neg (by omega : ¬ idx + 1 < 0)]
  rw [List.take_of_length_le (le_of_eq hlen)]
  rw [List.drop_eq_nil_of_le (by rw [hlen]; omega)]
  simp

/-- The Byte-Array encoding produces only integers. -/
theorem encodeBytes_all_ints (cs : List Char) :
    (cs.foldr (fun c acc => Value.vInt c.toNat :: Value.vInt 0 :: acc) []).all
      (fun v => match v with | .vInt _ => true | _ => false) = true := by
  induction cs with
  | nil => rfl
  | cons c cs ih => simp only [List.foldr, List.all_cons, ih, Bool.and_true]

/-- Decoding the Byte-Array encoding by stepping two-by-two recovers the
characters, for characters below 256. -/
theorem decode16_encodeBytes (cs : List Char) (h : ∀ c ∈ cs, c.toNat < 256) :
    decode16 (cs.foldr (fun c acc => Value.vInt c.toNat :: Value.vInt 0 :: acc) []) = .ok cs := by
  induction cs with
  | nil => rfl
  | cons c cs ih =>
      have hc : c.toNat < 256 := h c (List.mem_cons_self c cs)
      have ih2 := ih (fun x hx => h x (List.mem_cons_of_mem c hx))
      show decode16 (Value.vInt c.toNat :: Value.vInt 0 ::
        cs.foldr (fun c acc => Value.vInt c.toNat :: Value.vInt 0 :: acc) []) = _
      rw [decode16]
      unfold chrOf
      dsimp only
      rw [if_pos (by omega : (0 : Int) ≤ (c.toNat : Int) ∧ (c.toNat : Int) < 256)]
      rw [ih2]
      simp [Char.ofNat_toNat]

/-- Flattening the singleton decomposition of a character list is the
identity. -/
theorem map_singleton_flatten (cs : List Char) : (cs.map (fun c => [c])).flatten = cs := by
  induction cs with
  | nil => rfl
  | cons c cs ih => simp [ih]

/-- Composing the two Let coercions: decoding the Byte-Array encoding of a
sub-256 string through the String coercion recovers the string. -/
theorem decodeListToStr_encodeBytes (s : String) (h : ∀ c ∈ s.data, c.toNat < 256) :
    decodeListToStr (encodeBytes s) = .vStr s := by
  have hall : (List.map (fun c => ([c] : List Char)) s.data).all
      (fun t => decide (t.length ≤ 1)) = true := by simp
  unfold decodeListToStr encodeBytes
  rw [encodeBytes_all_ints s.data, decode16_encodeBytes s.data h]
  dsimp only
  rw [if_pos (rfl : true = true)]
  dsimp only
  rw [if_pos hall, map_singleton_flatten]

/-! ## Claim C1 -/

/-- C1: the claim says evaluating any statement never raises past the
statement's own boundary (failures are caught, logged and treated as
no-ops).  The code violates this: a Print statement addressing a file
handle with no open-file entry raises KeyError straight out of
Print_Statement.eval (there is no handler around the
`context.open_files[file_id]` lookup).  This theorem evaluates the code at
that failing input. -/
theorem c1_print_unopened_handle_raises :
    evalStmt 3 (.printStmt (.lit (.vInt 1)) (.lit (.vStr "A"))) emptyContext =
      some ⟨emptyContext, some .keyError, false⟩ := rfl

/-! ## Claim C2 -/

/-- C2 counterexample: the cap clamps the loop's end bound, not the number
of body executions.  `For i = 0 To 10000000` with the loop upper bound
configured to 1 runs its body for i = 0 and i = 1: the counter ends at 2,
which exceeds the configured bound of 1, so "the loop body executes at most
that configured number of iterations" is false as stated. -/
theorem c2_counterexample :
    (evalStmt 10 (.forStmt "i" (.lit (.vInt 0)) (.lit (.vInt 10000000)) none [incrStmt "c"])
        (countCtx 1 0 0 [])).map (fun o => (o.ctx.get "c", o.err)) =
      some (some (.vInt 2), none) ∧ ¬ ((2 : Int) ≤ 1) := ⟨rfl, by omega⟩

/-- C2 amended: when the evaluated end bound exceeds the configured positive
loop upper bound, the end bound is clamped to the configured bound before
the loop runs; consequently a counting loop `For i = s To e` with integer
start `s ≥ 1`, default step and a body that only increments a counter
executes its body exactly `B - s + 1` times (0 when `s > B`), which is at
most the configured bound `B`. -/
theorem c2_amended_cap (s e B : Int) (g : Nat) (hs : 1 ≤ s) (hB : 0 < B) (he : B < e) :
    evalStmt (g + (B - s).toNat + 4)
        (.forStmt "i" (.lit (.vInt s)) (.lit (.vInt e)) none [incrStmt "c"])
        (countCtx B 0 0 []) =
      some ⟨countCtx B (if s ≤ B then B - s + 1 else 0) (if s ≤ B then B + 1 else s) [],
            none, false⟩ ∧
    (if s ≤ B then B - s + 1 else 0) ≤ B := by
  constructor
  · show evalCore ((g + (B - s).toNat + 3) + 1) _ _ = _
    rw [c2_entry]
    rw [if_pos (⟨hB, he⟩ : 0 < B ∧ B < e)]
    by_cases hsb : s ≤ B
    · rw [countLoop B B ((B - s).toNat) g 0 s [] hsb rfl]
      rw [if_pos hsb, if_pos hsb]
      rw [show (0 : Int) + (((B - s).toNat : Int) + 1) = B - s + 1 by omega]
      rfl
    · rw [evalCore_forLoop, countCtx_get_i]
      dsimp only [pyLE]
      rw [if_neg (by simp only [decide_eq_true_eq]; omega : ¬ (decide (s ≤ B) = true))]
      rw [if_neg hsb, if_neg hsb]
      rfl
  · split <;> omega

/-- C2 amended witness: `For i = 1 To 10000000` with the bound configured
to 3 runs the counting body exactly 3 times. -/
theorem c2_amended_cap_witness :
    evalStmt 6 (.forStmt "i" (.lit (.vInt 1)) (.lit (.vInt 10000000)) none [incrStmt "c"])
        (countCtx 3 0 0 []) =
      some ⟨countCtx 3 3 4 [], none, false⟩ ∧ (3 : Int) ≤ 3 :=
  c2_amended_cap 1 10000000 3 0 (by decide) (by decide) (by decide)

/-! ## Claim C3 -/

/-- C3: for every nested pair of For loops (outer bound `n ≥ 1`, inner
bound `m ≥ 1`) where the inner body is counter / Exit For / counter, the
Exit For terminates only the innermost loop: each outer iteration starts
the inner body exactly once (`inner` ends at `n`, not `n * m`), no inner
body statement after the Exit For ever runs (`dead` stays 0), the loop-exit
signal is consumed by the inner loop and never observed above it (no
propagating exception, final loop-exit stack empty), and the outer loop's
subsequent iterations still run to completion (`outerPre` and `outerPost`
both end at `n`, the outer index ends at `n + 1`). -/
theorem c3_nested_exit_for (n m : Int) (g : Nat) (hn : 1 ≤ n) (hm : 1 ≤ m) :
    evalStmt (g + (n - 1).toNat + 9) (nestedFor n m) (nestCtx 0 0 0 0 0 0 []) =
      some ⟨nestCtx n n 0 n (n + 1) 1 [], none, false⟩ := by
  show evalCore ((g + (n - 1).toNat + 8) + 1) _ _ = _
  rw [nestedFor_entry]
  rw [outerLoop n m hm ((n - 1).toNat) g 0 0 0 0 1 0 [] (by omega) (by omega)]
  rw [show (0 : Int) + (((n - 1).toNat : Int) + 1) = n by omega]
  rfl

/-- C3 witness: two outer iterations around an inner loop declared to run
three times: the inner counter ends at 2 (one inner iteration per outer
pass), the dead counter stays 0, and both outer counters reach 2. -/
theorem c3_nested_exit_for_witness :
    evalStmt 10 (nestedFor 2 3) (nestCtx 0 0 0 0 0 0 []) =
      some ⟨nestCtx 2 2 0 2 3 1 [], none, false⟩ :=
  c3_nested_exit_for 2 3 0 (by decide) (by decide)

/-! ## Claim C4 -/

/-- C4: composing the two Let-statement coercions is the identity on ASCII
text.  Assigning a text string to the Byte-Array-declared variable stores
the list of its character codes each followed by a zero byte, and assigning
that list back to the String-declared variable recovers the original
text. -/
theorem c4_roundtrip (s : String) (f : Nat) (h : ∀ c ∈ s.data, c.toNat < 128) :
    evalStmt (f + 1) (.letStmt "b" none (.lit (.vStr s))) roundCtx =
      some ⟨roundCtx.set "b" (.vList (encodeBytes s)), none, false⟩ ∧
    evalStmt (f + 1) (.letStmt "r" none (.var "b")) (roundCtx.set "b" (.vList (encodeBytes s))) =
      some ⟨(roundCtx.set "b" (.vList (encodeBytes s))).set "r" (.vStr s), none, false⟩ := by
  have hd : decodeListToStr (encodeBytes s) = .vStr s :=
    decodeListToStr_encodeBytes s (fun c hc => lt_trans (h c hc) (by norm_num))
  constructor
  · rfl
  · calc evalStmt (f + 1) (.letStmt "r" none (.var "b"))
          (roundCtx.set "b" (.vList (encodeBytes s)))
        = some ⟨(roundCtx.set "b" (.vList (encodeBytes s))).set "r"
            (decodeListToStr (encodeBytes s)), none, false⟩ := rfl
      _ = some ⟨(roundCtx.set "b" (.vList (encodeBytes s))).set "r" (.vStr s), none, false⟩ := by
          rw [hd]

/-- C4 witness: the spec's own example, the text "AB": the Byte-Array
assignment stores [65, 0, 66, 0] and the String assignment recovers "AB". -/
theorem c4_roundtrip_witness :
    (evalStmt 1 (.letStmt "b" none (.lit (.vStr "AB"))) roundCtx =
      some ⟨roundCtx.set "b" (.vList [.vInt 65, .vInt 0, .vInt 66, .vInt 0]), none, false⟩ ∧
    evalStmt 1 (.letStmt "r" none (.var "b"))
        (roundCtx.set "b" (.vList [.vInt 65, .vInt 0, .vInt 66, .vInt 0])) =
      some ⟨(roundCtx.set "b" (.vList [.vInt 65, .vInt 0, .vInt 66, .vInt 0])).set "r"
              (.vStr "AB"), none, false⟩) :=
  c4_roundtrip "AB" 0 (by decide)

/-! ## Claim C5 -/

/-- C5 counterexample: the claim's "match iff the select value is a member
of the successfully evaluated members, and any member failure is a
non-match rather than an error" fails on the set semantics of the code.
First input: the member expression `[2]` evaluates successfully to a value
equal to the select value, so the claim predicts a match, but `set.add`
raises TypeError on the unhashable list into the bare `except` and the case
is non-matching.  Second input: with members 7 and 8 and a list-valued
select value the claim predicts a plain non-match, but the unguarded
`test_val in expected_vals` raises an uncaught TypeError. -/
theorem c5_counterexample :
    (caseClauseEval ⟨[.lit (.vInt 7), .lit (.vList [.vInt 2])], false, true, false⟩
        emptyContext (.vList [.vInt 2]) = .ok false ∧
     evalArg (.lit (.vList [.vInt 2])) emptyContext = .ok (.vList [.vInt 2]) ∧
     pyEq (.vList [.vInt 2]) (.vList [.vInt 2]) = true) ∧
    caseClauseEval ⟨[.lit (.vInt 7), .lit (.vInt 8)], false, true, false⟩
        emptyContext (.vList []) = .error .typeError :=
  ⟨⟨rfl, rfl, rfl⟩, rfl⟩

/-- C5 amended: for a set-case clause (not a range, not the else clause),
member collection evaluates the members in order and inserts them into the
candidate set; a member that fails to evaluate, or that evaluates to an
unhashable list which the set insertion rejects, makes the whole case
non-matching rather than an error (the first such member short-circuits).
When every member is collected, the result is the Python set-membership
test: a boolean (match iff the select value equals a member) for a hashable
select value, and an uncaught TypeError for a list-valued select value. -/
theorem c5_set_case (c : CaseClause) (ctx : Context) (v : Value)
    (h1 : c.is_else = false) (h2 : c.test_range = false) (h3 : c.test_set = true) :
    caseClauseEval c ctx v =
      match evalMembers c.case_val ctx with
      | .error _ => .ok false
      | .ok vals => pySetContains v vals := by
  unfold caseClauseEval
  rw [h1, h2, h3]
  simp only [Bool.false_eq_true, if_false, if_true]
  cases evalMembers c.case_val ctx with
  | error er => rfl
  | ok vals => cases hps : pySetContains v vals <;> simp [hps]

/-- C5 witness: a concrete set-case `Case 7, 8, 9` against select value 8
(all members and the select value hashable, so the membership test decides
the match). -/
theorem c5_set_case_witness :
    caseClauseEval ⟨[.lit (.vInt 7), .lit (.vInt 8), .lit (.vInt 9)], false, true, false⟩
        emptyContext (.vInt 8) =
      match evalMembers [Expr.lit (.vInt 7), .lit (.vInt 8), .lit (.vInt 9)] emptyContext with
      | .error _ => .ok false
      | .ok vals => pySetContains (.vInt 8) vals :=
  c5_set_case ⟨[.lit (.vInt 7), .lit (.vInt 8), .lit (.vInt 9)], false, true, false⟩
    emptyContext (.vInt 8) rfl rfl rfl

/-! ## Claim C6 -/

/-- C6: an indexed assignment `name(i) = v` on a variable currently holding
a list, with the evaluated index at or beyond the current length,
zero-extends the list up to the index and splices the value in at that
position, preserving all earlier elements. -/
theorem c6_indexed_assign (ctx : Context) (name : String) (ie re : Expr) (iv v : Value)
    (idx : Int) (l : List Value) (f : Nat)
    (hget : ctx.get name = some (.vList l))
    (hrhs : evalArg re ctx = .ok v)
    (hie : evalArg ie ctx = .ok iv)
    (hidx : pyToInt iv = .ok idx)
    (hlen : (l.length : Int) ≤ idx) :
    evalStmt (f + 1) (.letStmt name (some ie) re) ctx =
      some ⟨ctx.set name (.vList (l ++ List.replicate (idx - l.length).toNat (.vInt 0) ++ [v])),
            none, false⟩ := by
  show some (letEval name (some ie) re ctx) = _
  unfold letEval
  rw [hrhs]
  dsimp only
  rw [hie]
  dsimp only
  rw [hidx]
  dsimp only
  rw [hget]
  dsimp only
  rw [listIndexAssign_extend l idx v hlen]

/-- C6 witness: the spec's own example, `arr(5) = 9` on an empty list,
yields the length-6 list [0, 0, 0, 0, 0, 9]. -/
theorem c6_indexed_assign_witness :
    evalStmt 1 (.letStmt "arr" (some (.lit (.vInt 5))) (.lit (.vInt 9)))
        ⟨[("arr", .vList [])], [], [], "", [], [], false, 0⟩ =
      some ⟨Context.set ⟨[("arr", .vList [])], [], [], "", [], [], false, 0⟩ "arr"
              (.vList [.vInt 0, .vInt 0, .vInt 0, .vInt 0, .vInt 0, .vInt 9]),
            none, false⟩ :=
  c6_indexed_assign ⟨[("arr", .vList [])], [], [], "", [], [], false, 0⟩ "arr"
    (.lit (.vInt 5)) (.lit (.vInt 9)) (.vInt 5) (.vInt 9) 5 [] 0 rfl rfl rfl rfl (by decide)

/-! ## Claim C7 -/

/-- C7 counterexample: the claim says a For-Each whose container expression
fails to evaluate performs zero iterations silently, completes normally and
still pops the loop-exit stack entry pushed on entry.  But `eval_arg` of the
container runs before the `try` blocks, so a raising container expression
propagates out of For_Each_Statement.eval with the pushed entry still on
the stack: the evaluation neither completes normally nor pops the entry. -/
theorem c7_counterexample :
    (evalStmt 5 (.forEach "x" .err []) emptyContext).map StepOut.err =
      some (some .valueError) ∧
    (evalStmt 5 (.forEach "x" .err []) emptyContext).map (fun o => o.ctx.loop_stack) =
      some [true] :=
  ⟨rfl, rfl⟩

/-- C7 amended: if the container expression evaluates without raising (the
variable-lookup override included) and the resulting value is not iterable,
the For-Each performs zero iterations silently: the iteration TypeError is
caught, evaluation completes normally with the Context unchanged, and the
loop-exit stack entry pushed on entry is popped again.  (A container
expression whose evaluation itself raises instead propagates the exception
and leaves the pushed entry on the stack.) -/
theorem c7_amended (ctx : Context) (item : String) (contE : Expr) (body : List Stmt)
    (v : Value) (f : Nat)
    (h1 : forEachResolve contE (ctx.pushLoop true) = .ok v)
    (h2 : toItems v = none) :
    evalStmt (f + 1) (.forEach item contE body) ctx = some ⟨ctx, none, false⟩ := by
  show evalCore (f + 1) (.stmt (.forEach item contE body)) ctx = some ⟨ctx, none, false⟩
  rw [evalCore_stmt_forEach, h1]
  dsimp only
  rw [h2]
  dsimp only [popLoopOut, Context.pushLoop]

/-- C7 amended witness: iterating over the non-iterable integer 7 is a
silent no-op. -/
theorem c7_amended_witness :
    evalStmt 1 (.forEach "x" (.lit (.vInt 7)) [.exitFor]) emptyContext =
      some ⟨emptyContext, none, false⟩ :=
  c7_amended emptyContext "x" (.lit (.vInt 7)) [.exitFor] (.vInt 7) 0 rfl rfl

/-! ## Claim C8 -/

/-- C8: a Call statement whose target name is MsgBox (case-insensitively)
invoked with an empty argument list raises IndexError while building the
Display Message action (`call_params[0]` is read unconditionally), instead
of completing as a logged no-op. -/
theorem c8_msgbox_empty_args (name : String) (ctx : Context) (f : Nat)
    (h : pyLower name = "msgbox") :
    evalStmt (f + 1) (.callStmt name []) ctx = some ⟨ctx, some .indexError, false⟩ := by
  show some (callEval name [] ctx) = _
  unfold callEval
  rw [h]
  simp [evalArgs]

/-- C8 witness: `Call MsgBox` with no arguments on a fresh Context. -/
theorem c8_msgbox_empty_args_witness :
    evalStmt 1 (.callStmt "MsgBox" []) emptyContext =
      some ⟨emptyContext, some .indexError, false⟩ :=
  c8_msgbox_empty_args "MsgBox" emptyContext 0 rfl

/-! ## Claim C9 -/

/-- C9: evaluating a File-Open statement whose handle already has an entry
in the open-file table unconditionally replaces that entry: its name becomes
the newly evaluated file name and its contents sequence is reset to empty,
discarding whatever was recorded under the handle before. -/
theorem c9_file_open_replaces (ctx : Context) (fn : String) (fid : Value) (e : FileEntry)
    (f : Nat) (h : lookupFile ctx.open_files fid = some e) :
    evalStmt (f + 1) (.fileOpen fn fid) ctx =
      some ⟨ctx.setFile fid ⟨fileOpenName fn ctx, []⟩, none, false⟩ ∧
    lookupFile (ctx.setFile fid ⟨fileOpenName fn ctx, []⟩).open_files fid =
      some ⟨fileOpenName fn ctx, []⟩ :=
  ⟨rfl, lookupFile_upsertFile ctx.open_files fid ⟨fileOpenName fn ctx, []⟩⟩

/-- C9 witness: re-opening handle 1, which currently records contents
[65], resets the entry to the new name with empty contents. -/
theorem c9_file_open_replaces_witness :
    evalStmt 1 (.fileOpen "f" (.vInt 1))
        ⟨[], [], [], "", [(.vInt 1, ⟨.vStr "old", [.vInt 65]⟩)], [], false, 0⟩ =
      some ⟨Context.setFile ⟨[], [], [], "", [(.vInt 1, ⟨.vStr "old", [.vInt 65]⟩)], [], false, 0⟩
              (.vInt 1) ⟨fileOpenName "f" ⟨[], [], [], "", [(.vInt 1, ⟨.vStr "old", [.vInt 65]⟩)], [], false, 0⟩, []⟩,
            none, false⟩ ∧
    lookupFile (Context.setFile ⟨[], [], [], "", [(.vInt 1, ⟨.vStr "old", [.vInt 65]⟩)], [], false, 0⟩
              (.vInt 1) ⟨fileOpenName "f" ⟨[], [], [], "", [(.vInt 1, ⟨.vStr "old", [.vInt 65]⟩)], [], false, 0⟩, []⟩).open_files
        (.vInt 1) =
      some ⟨fileOpenName "f" ⟨[], [], [], "", [(.vInt 1, ⟨.vStr "old", [.vInt 65]⟩)], [], false, 0⟩, []⟩ :=
  c9_file_open_replaces ⟨[], [], [], "", [(.vInt 1, ⟨.vStr "old", [.vInt 65]⟩)], [], false, 0⟩
    "f" (.vInt 1) ⟨.vStr "old", [.vInt 65]⟩ 0 rfl

/-! ## Claim C10 -/

/-- C10: on a Context whose loop-exit stack is non-empty, Exit For and Exit
Do leave the stack's length and all entries below the top unchanged, set the
top entry to false, and mutate nothing else in the Context. -/
theorem c10_exit_flips_top (ctx : Context) (b : Bool) (rest : List Bool) (f : Nat)
    (h : ctx.loop_stack = b :: rest) :
    evalStmt (f + 1) .exitFor ctx = some ⟨{ ctx with loop_stack := false :: rest }, none, false⟩ ∧
    evalStmt (f + 1) .exitDo ctx = some ⟨{ ctx with loop_stack := false :: rest }, none, false⟩ := by
  constructor <;>
    · show some (exitForEval ctx) = _
      unfold exitForEval
      rw [h]

/-- C10 witness: Exit For / Exit Do on a Context with stack [true, true]. -/
theorem c10_exit_flips_top_witness :
    evalStmt 1 .exitFor ⟨[], [], [true, true], "", [], [], false, 0⟩ =
      some ⟨{ (⟨[], [], [true, true], "", [], [], false, 0⟩ : Context) with
              loop_stack := [false, true] }, none, false⟩ ∧
    evalStmt 1 .exitDo ⟨[], [], [true, true], "", [], [], false, 0⟩ =
      some ⟨{ (⟨[], [], [true, true], "", [], [], false, 0⟩ : Context) with
              loop_stack := [false, true] }, none, false⟩ :=
  c10_exit_flips_top ⟨[], [], [true, true], "", [], [], false, 0⟩ true [true] 0 rfl

end ViperMonkey
